import Mathlib

set_option maxHeartbeats 1000000
set_option maxRecDepth 3000

namespace HexWar

/-- Offset hex coordinate on the odd-column-shifted grid (src/hex.rs `HexCoord`).
Rust `i32` fields are modeled as unbounded integers; the coordinate arithmetic in
src/hex.rs stays far from the `i32` boundaries for every map-sized input. -/
structure HexCoord where
  column : Int
  row : Int
deriving DecidableEq, Repr

/-- `hex_to_cube` (src/hex.rs lines 9-14).  Rust `column & 1` on a two's-complement
`i32` is the low bit, i.e. `column % 2` in the Euclidean sense; the truncating
division `/ 2` is applied to the even number `column - (column & 1)`, modeled with
`Int.tdiv`. -/
def hex_to_cube (coord : HexCoord) : Int × Int × Int :=
  let x := coord.column
  let z := coord.row - (coord.column - coord.column % 2).tdiv 2
  let y := -x - z
  (x, y, z)

/-- `hex_from_cube` (src/hex.rs lines 16-20); the `y` argument is ignored by the source. -/
def hex_from_cube (x _y z : Int) : HexCoord :=
  { column := x, row := z + (x - x % 2).tdiv 2 }

/-- `hex_distance` (src/hex.rs lines 22-26): cube Manhattan distance halved.
`i32::abs` is modeled by `Int.natAbs` (cast back to `Int`), and the source's
truncating `/ 2` of the (nonnegative, even) sum is kept as `Int.tdiv`. -/
def hex_distance (a b : HexCoord) : Int :=
  let c1 := hex_to_cube a
  let c2 := hex_to_cube b
  (((c1.1 - c2.1).natAbs : Int) + ((c1.2.1 - c2.2.1).natAbs : Int)
    + ((c1.2.2 - c2.2.2).natAbs : Int)).tdiv 2

/-- `hex_neighbors` (src/hex.rs lines 28-88): the six offset neighbors, with the
direction table chosen by the parity of `column.abs()`. -/
def hex_neighbors (coord : HexCoord) : List HexCoord :=
  let column := coord.column
  let row := coord.row
  if column.natAbs % 2 ≠ 0 then
    [{ column := column, row := row - 1 },
     { column := column + 1, row := row },
     { column := column + 1, row := row + 1 },
     { column := column, row := row + 1 },
     { column := column - 1, row := row + 1 },
     { column := column - 1, row := row }]
  else
    [{ column := column, row := row - 1 },
     { column := column + 1, row := row - 1 },
     { column := column + 1, row := row },
     { column := column, row := row + 1 },
     { column := column - 1, row := row },
     { column := column - 1, row := row - 1 }]

/-- Rust's truncating `(x - (x & 1)) / 2` is exactly the floor `x / 2`: the
numerator is the even number `2 * (x / 2)`. -/
theorem tdiv_sub_emod_two (x : Int) : (x - x % 2).tdiv 2 = x / 2 := by
  have h : x - x % 2 = 2 * (x / 2) := by
    have h2 := Int.ediv_add_emod x 2
    omega
  rw [h, Int.mul_tdiv_cancel_left _ (by norm_num)]

/-- Rust truncating division agrees with Euclidean division on nonnegative operands. -/
theorem tdiv_two_of_nonneg {x : Int} (h : 0 ≤ x) : x.tdiv 2 = x / 2 :=
  Int.tdiv_eq_ediv h (by norm_num)

/-- C5: the offset/cube conversions are mutual inverses: `hex_from_cube ∘ hex_to_cube`
is the identity on every `HexCoord`, and `hex_to_cube ∘ hex_from_cube` is the identity
on every cube triple with `x + y + z = 0`. -/
theorem claim_C5_cube_offset_round_trip :
    (∀ c : HexCoord,
      hex_from_cube (hex_to_cube c).1 (hex_to_cube c).2.1 (hex_to_cube c).2.2 = c) ∧
    (∀ x y z : Int, x + y + z = 0 → hex_to_cube (hex_from_cube x y z) = (x, y, z)) := by
  constructor
  · intro c
    obtain ⟨col, row⟩ := c
    simp [hex_to_cube, hex_from_cube, tdiv_sub_emod_two, HexCoord.mk.injEq]
    try omega
  · intro x y z h
    simp only [hex_to_cube, hex_from_cube, tdiv_sub_emod_two]
    refine Prod.ext ?_ (Prod.ext ?_ ?_) <;> simp <;> omega

theorem claim_C5_witness :
    hex_from_cube (hex_to_cube ⟨-3, 5⟩).1 (hex_to_cube ⟨-3, 5⟩).2.1 (hex_to_cube ⟨-3, 5⟩).2.2
      = (⟨-3, 5⟩ : HexCoord) ∧
    hex_to_cube (hex_from_cube 2 (-7) 5) = (2, -7, 5) :=
  ⟨claim_C5_cube_offset_round_trip.1 ⟨-3, 5⟩,
   claim_C5_cube_offset_round_trip.2 2 (-7) 5 (by decide)⟩

/-- C6: for every coordinate (either column parity, negatives included),
`hex_neighbors` returns exactly 6 pairwise-distinct coordinates, each at
`hex_distance` 1 from the center. -/
theorem claim_C6_neighbors_distinct_distance_one :
    ∀ c : HexCoord, (hex_neighbors c).length = 6 ∧ (hex_neighbors c).Nodup ∧
      ∀ n ∈ hex_neighbors c, hex_distance c n = 1 := by
  intro c
  obtain ⟨col, row⟩ := c
  rcases Nat.mod_two_eq_zero_or_one col.natAbs with hm | hm
  all_goals
    have hp : col % 2 = 0 ∨ col % 2 = 1 := by omega
    refine ⟨by simp [hex_neighbors, hm], ?_, ?_⟩
    · simp only [hex_neighbors, hm]
      norm_num [List.nodup_cons, HexCoord.mk.injEq, not_or]
      omega
    · intro n hn
      simp only [hex_neighbors, hm] at hn
      norm_num [List.mem_cons] at hn
      rcases hn with h' | h' | h' | h' | h' | h' <;> subst h' <;>
        · simp only [hex_distance, hex_to_cube, tdiv_sub_emod_two]
          rw [tdiv_two_of_nonneg (by positivity)]
          omega

theorem claim_C6_witness :
    (hex_neighbors ⟨0, 0⟩).length = 6 ∧
    hex_distance ⟨0, 0⟩ ⟨1, -1⟩ = 1 :=
  ⟨(claim_C6_neighbors_distinct_distance_one ⟨0, 0⟩).1,
   (claim_C6_neighbors_distinct_distance_one ⟨0, 0⟩).2.2 ⟨1, -1⟩ (by decide)⟩

/-! ## Game data model (src/ecs.rs, src/constants.rs)

Entities are `Nat` ids; each freecs component table is an association list keyed by
entity id.  `f32` quantities that feed game logic (combat strengths, defense
bonuses) are modeled exactly over `ℚ`; for the soldier counts (1..=99) and morale
values (-50..=50) the game maintains, the `f32` computations of src are exact or
round to the same comparison results and floors as the rational values. -/

inductive Difficulty
  | Easy
  | Normal
  | Hard
deriving DecidableEq, Repr

/-- `Faction` (src/ecs.rs lines 16-23). -/
inductive Faction
  | Redosia
  | Violetnam
  | Bluegaria
  | Greenland
deriving DecidableEq, Repr

/-- `next_faction` (src/ecs.rs lines 25-32): fixed cyclic order. -/
def next_faction : Faction → Faction
  | .Redosia => .Violetnam
  | .Violetnam => .Bluegaria
  | .Bluegaria => .Greenland
  | .Greenland => .Redosia

/-- `faction_index` (src/ecs.rs lines 43-50). -/
def faction_index : Faction → Nat
  | .Redosia => 0
  | .Violetnam => 1
  | .Bluegaria => 2
  | .Greenland => 3

/-- `TileType` (src/ecs.rs lines 136-145). -/
inductive TileType
  | Sea
  | Land
  | Forest
  | City
  | Port
  | Capital
deriving DecidableEq, Repr

/-- `tile_defense_bonus` (src/ecs.rs lines 147-155); `f32` constants modeled exactly. -/
def tile_defense_bonus : TileType → ℚ
  | .Capital => 1.2
  | .City => 1.1
  | .Forest => 1.15
  | .Port => 1.05
  | _ => 1

/-- `Unit` (src/ecs.rs lines 118-126); the visual `text_entity` handle is rendering
state and is omitted. -/
structure Unit where
  faction : Faction
  soldiers : Int
  morale : Int
  movement_range : Int
  has_moved : Bool
deriving DecidableEq, Repr

/-- `Tile` (src/ecs.rs lines 157-161). -/
structure Tile where
  tile_type : TileType
  faction : Option Faction
deriving DecidableEq, Repr

/-- `Movement` (src/ecs.rs lines 128-134); `f32` progress/speed as `ℚ`. -/
structure Movement where
  path : List HexCoord
  current_segment : Nat
  segment_progress : ℚ
  speed : ℚ
deriving DecidableEq, Repr

/-- The slice of `GameResources` (src/ecs.rs lines 74-98) the simulation layer
reads and writes; rendering/picking caches are omitted.  `rng_seed` is a `u32`
kept as a `Nat` reduced mod `2^32` at every wrapping operation. -/
structure GameResources where
  rng_seed : Nat
  valid_move_tiles : List HexCoord
  current_faction : Faction
  actions_remaining : Nat
  turn_number : Nat
  faction_eliminated : List Bool
  faction_morale : List Int
  speech_used : Bool
  turn_order : List Nat
  current_unit_index : Nat
  difficulty : Difficulty
deriving DecidableEq, Repr

/-- The freecs `GameWorld` (src/ecs.rs lines 61-98): one association table per
component kind, plus the `selected` tag set and resources. -/
structure GameWorld where
  units : List (Nat × Unit)
  tiles : List (Nat × Tile)
  hexPositions : List (Nat × HexCoord)
  movements : List (Nat × Movement)
  selected : List Nat
  resources : GameResources
deriving DecidableEq, Repr

/-- src/constants.rs -/
def ACTIONS_PER_TURN : Nat := 5

def CITY_REINFORCEMENT : Int := 10

def MAX_SOLDIERS : Int := 99

def UNIT_MOVEMENT_SPEED : ℚ := 2

def MAP_WIDTH : Int := 31

def MAP_HEIGHT : Int := 21

/-- `get_unit` / component lookups: association-list lookup by entity id. -/
def get_unit (w : GameWorld) (e : Nat) : Option Unit := w.units.lookup e

def get_tile (w : GameWorld) (e : Nat) : Option Tile := w.tiles.lookup e

def get_hex_position (w : GameWorld) (e : Nat) : Option HexCoord := w.hexPositions.lookup e

def get_movement (w : GameWorld) (e : Nat) : Option Movement := w.movements.lookup e

/-- `set_unit`: overwrite the unit component of an existing entity. -/
def set_unit (w : GameWorld) (e : Nat) (u : Unit) : GameWorld :=
  { w with units := w.units.map (fun p => if p.1 = e then (e, u) else p) }

def set_tile (w : GameWorld) (e : Nat) (t : Tile) : GameWorld :=
  { w with tiles := w.tiles.map (fun p => if p.1 = e then (e, t) else p) }

/-- `add_components(e, MOVEMENT)` followed by `set_movement`: upsert. -/
def set_movement (w : GameWorld) (e : Nat) (m : Movement) : GameWorld :=
  { w with movements :=
      if (w.movements.lookup e).isSome then
        w.movements.map (fun p => if p.1 = e then (e, m) else p)
      else
        w.movements ++ [(e, m)] }

/-- `query_entities(HEX_POSITION | TILE)`: entity ids that carry both components,
iterated in tile-table order. -/
def queryHexTile (w : GameWorld) : List Nat :=
  (w.tiles.map Prod.fst).filter (fun e => (w.hexPositions.lookup e).isSome)

/-- `query_entities(HEX_POSITION | UNIT)`: entity ids that carry both components,
iterated in unit-table order. -/
def queryHexUnit (w : GameWorld) : List Nat :=
  (w.units.map Prod.fst).filter (fun e => (w.hexPositions.lookup e).isSome)

/-- `query_entities(MOVEMENT)`. -/
def queryMovement (w : GameWorld) : List Nat := w.movements.map Prod.fst

/-- `get_faction_morale` (src/ecs.rs lines 100-102). -/
def get_faction_morale (res : GameResources) (f : Faction) : Int :=
  res.faction_morale.getD (faction_index f) 0

/-- `modify_faction_morale` (src/ecs.rs lines 104-107): add the delta and clamp
the entry to `[-50, 50]` (`i32::clamp`). -/
def modify_faction_morale (res : GameResources) (f : Faction) (delta : Int) : GameResources :=
  let index := faction_index f
  let clamped := min 50 (max (-50) (res.faction_morale.getD index 0 + delta))
  { res with faction_morale := res.faction_morale.set index clamped }

/-! ## Pathfinding & reachability (src/systems/valid_moves.rs)

The HashSets of the source are membership-only; they are modeled as lists of
coordinates.  The BFS loops are fueled; `passable.length + 1` fuel always
suffices because every coordinate enters `distances` at most once and only
inserted coordinates are enqueued. -/

def maxI32 : Int := 2147483647

/-- The `passable_tiles` set (non-Sea tiles), as built in `find_path` and
`calculate_valid_moves`. -/
def passable_coords (w : GameWorld) : List HexCoord :=
  (queryHexTile w).filterMap (fun e =>
    match get_hex_position w e, get_tile w e with
    | some coord, some tile => if tile.tile_type ≠ TileType.Sea then some coord else none
    | _, _ => none)

/-- The `sea_tiles` set of `find_sea_path`. -/
def sea_coords (w : GameWorld) : List HexCoord :=
  (queryHexTile w).filterMap (fun e =>
    match get_hex_position w e, get_tile w e with
    | some coord, some tile => if tile.tile_type = TileType.Sea then some coord else none
    | _, _ => none)

/-- The `port_tiles` set of `calculate_valid_moves`. -/
def port_coords (w : GameWorld) : List HexCoord :=
  (queryHexTile w).filterMap (fun e =>
    match get_hex_position w e, get_tile w e with
    | some coord, some tile => if tile.tile_type = TileType.Port then some coord else none
    | _, _ => none)

/-- The `from_is_port` / `to_is_port` checks of `find_path` (lines 141-163). -/
def is_port_at (w : GameWorld) (c : HexCoord) : Bool :=
  (queryHexTile w).any (fun e =>
    match get_hex_position w e, get_tile w e with
    | some coord, some tile => coord == c && tile.tile_type == TileType.Port
    | _, _ => false)

/-- The multi-predecessor BFS loop of `find_path` (lines 176-198). -/
def land_bfs (passable : List HexCoord) :
    Nat → List (HexCoord × Int) → List (HexCoord × List HexCoord) → List HexCoord →
    List (HexCoord × Int) × List (HexCoord × List HexCoord)
  | 0, distances, predecessors, _ => (distances, predecessors)
  | _ + 1, distances, predecessors, [] => (distances, predecessors)
  | fuel + 1, distances, predecessors, current :: queueRest =>
    let current_dist := (distances.lookup current).getD 0
    let step := (hex_neighbors current).foldl (fun acc neighbor =>
      let (d, p, q) := acc
      if neighbor ∈ passable then
        match d.lookup neighbor with
        | none =>
          ((neighbor, current_dist + 1) :: d, (neighbor, [current]) :: p, q ++ [neighbor])
        | some existing_dist =>
          if existing_dist = current_dist + 1 then
            (d, p.map (fun pr => if pr.1 = neighbor then (pr.1, pr.2 ++ [current]) else pr), q)
          else (d, p, q)
      else acc) (distances, predecessors, queueRest)
    land_bfs passable fuel step.1 step.2.1 step.2.2

/-- The tie-break of the path reconstruction (lines 210-242).  `align` stands for
`direction_alignment` (lines 89-114), which scales an `f32` dot product of
world-space directions by 10000; it is kept abstract because it is floating-point
and only influences which equal-length path is preferred.  Rust's `max_by_key`
returns the last maximal element, hence `≤` in the fold. -/
def best_predecessor (align : HexCoord → HexCoord → HexCoord → Int)
    (target current : HexCoord) (pathRev : List HexCoord) :
    List HexCoord → Option HexCoord
  | [] => none
  | [single] => some single
  | first :: restPreds =>
    let key := fun (pred : HexCoord) =>
      let alignment_to_goal := align pred current target
      let alignment_to_next :=
        match pathRev.get? 1 with
        | some next =>
          if current.column - next.column = current.column - pred.column ∧
              current.row - next.row = current.row - pred.row then (10000 : Int)
          else 0
        | none => 0
      alignment_to_goal + alignment_to_next
    some (restPreds.foldl (fun best x => if key best ≤ key x then x else best) first)

/-- The backward walk of `find_path` (lines 204-249), fueled; returns `none` on
fuel exhaustion or a missing predecessor entry, which cannot happen for the
predecessor maps `land_bfs` builds. -/
def reconstruct_path (align : HexCoord → HexCoord → HexCoord → Int)
    (predecessors : List (HexCoord × List HexCoord)) (source target : HexCoord) :
    Nat → List HexCoord → HexCoord → Option (List HexCoord)
  | 0, _, _ => none
  | fuel + 1, pathRev, current =>
    if current = source then some pathRev.reverse
    else
      match predecessors.lookup current with
      | none => none
      | some preds =>
        match best_predecessor align target current pathRev preds with
        | none => none
        | some best_pred =>
          reconstruct_path align predecessors source target fuel (best_pred :: pathRev) best_pred

/-- The per-pair sea BFS of `find_sea_path` (lines 38-63), which stops as soon as
the endpoint is popped and keeps a single predecessor per node. -/
def sea_bfs (sea : List HexCoord) (end_sea : HexCoord) :
    Nat → List (HexCoord × Int) → List (HexCoord × HexCoord) → List HexCoord →
    List (HexCoord × Int) × List (HexCoord × HexCoord)
  | 0, distances, predecessors, _ => (distances, predecessors)
  | _ + 1, distances, predecessors, [] => (distances, predecessors)
  | fuel + 1, distances, predecessors, current :: queueRest =>
    if current = end_sea then (distances, predecessors)
    else
      let current_dist := (distances.lookup current).getD 0
      let step := (hex_neighbors current).foldl (fun acc neighbor =>
        let (d, p, q) := acc
        if neighbor ∈ sea ∧ (d.lookup neighbor).isNone then
          ((neighbor, current_dist + 1) :: d, (neighbor, current) :: p, q ++ [neighbor])
        else acc) (distances, predecessors, queueRest)
      sea_bfs sea end_sea fuel step.1 step.2.1 step.2.2

/-- The predecessor walk of `find_sea_path` (lines 68-74), fueled. -/
def sea_walk (predecessors : List (HexCoord × HexCoord)) :
    Nat → List HexCoord → HexCoord → List HexCoord
  | 0, acc, _ => acc
  | fuel + 1, acc, current =>
    match predecessors.lookup current with
    | some pred => sea_walk predecessors fuel (acc ++ [pred]) pred
    | none => acc

/-- `find_sea_path` (src/systems/valid_moves.rs lines 5-87). -/
def find_sea_path (w : GameWorld) (source target : HexCoord) : Option (List HexCoord) :=
  let sea_tiles := sea_coords w
  let sea_neighbors_of_source := (hex_neighbors source).filter (· ∈ sea_tiles)
  let sea_neighbors_of_target := (hex_neighbors target).filter (· ∈ sea_tiles)
  if sea_neighbors_of_source.isEmpty ∨ sea_neighbors_of_target.isEmpty then
    some [source, target]
  else
    let best := sea_neighbors_of_source.foldl (fun best1 start_sea =>
      sea_neighbors_of_target.foldl (fun (acc : Option (List HexCoord) × Int) end_sea =>
        let state := sea_bfs sea_tiles end_sea (sea_tiles.length + 1) [(start_sea, 0)] [] [start_sea]
        match state.1.lookup end_sea with
        | some dist =>
          if dist < acc.2 then
            let sea_path := (sea_walk state.2 (sea_tiles.length + 1) [end_sea] end_sea).reverse
            (some (([source] ++ sea_path) ++ [target]), dist)
          else acc
        | none => acc) best1) ((none : Option (List HexCoord)), maxI32)
    best.1.orElse (fun _ => some [source, target])

/-- `find_path` (src/systems/valid_moves.rs lines 116-250). -/
def find_path (align : HexCoord → HexCoord → HexCoord → Int) (w : GameWorld)
    (source target : HexCoord) : Option (List HexCoord) :=
  if source = target then some [source]
  else
    let passable_tiles := passable_coords w
    if source ∉ passable_tiles ∨ target ∉ passable_tiles then none
    else if is_port_at w source ∧ is_port_at w target then find_sea_path w source target
    else
      let state := land_bfs passable_tiles (passable_tiles.length + 1) [(source, 0)] [] [source]
      if (state.1.lookup target).isNone then none
      else reconstruct_path align state.2 source target (passable_tiles.length + 1) [target] target

/-- The range-bounded BFS of `calculate_valid_moves` (lines 292-326), including the
port-teleport insertion performed while the start hex is being expanded.  The
teleport entries are inserted into `distances` but never enqueued. -/
def cvm_bfs (passable ports : List HexCoord) (unit_hex : HexCoord) (movement_range : Int)
    (starting_on_port : Bool) :
    Nat → List (HexCoord × Int) → List HexCoord → List (HexCoord × Int)
  | 0, distances, _ => distances
  | _ + 1, distances, [] => distances
  | fuel + 1, distances, current :: queueRest =>
    let current_distance := (distances.lookup current).getD 0
    if current_distance ≥ movement_range then
      cvm_bfs passable ports unit_hex movement_range starting_on_port fuel distances queueRest
    else
      let step := (hex_neighbors current).foldl (fun acc neighbor =>
        let (d, q) := acc
        if neighbor ∈ passable ∧ (d.lookup neighbor).isNone then
          ((neighbor, current_distance + 1) :: d, q ++ [neighbor])
        else acc) (distances, queueRest)
      let withPorts :=
        if starting_on_port ∧ current = unit_hex then
          ports.foldl (fun d port_coord =>
            if port_coord = unit_hex ∨ (d.lookup port_coord).isSome then d
            else (port_coord, movement_range) :: d) step.1
        else step.1
      cvm_bfs passable ports unit_hex movement_range starting_on_port fuel withPorts step.2

/-- The `unit_positions` set of `calculate_valid_moves` (lines 258-262): hexes of
all units other than the moving one. -/
def unit_coords_excluding (w : GameWorld) (unit_entity : Nat) : List HexCoord :=
  ((queryHexUnit w).filter (fun e => e ≠ unit_entity)).filterMap (fun e => get_hex_position w e)

/-- `calculate_valid_moves` (src/systems/valid_moves.rs lines 252-335). -/
def calculate_valid_moves (w : GameWorld) (unit_entity : Nat) (unit_hex : HexCoord)
    (movement_range : Int) : List HexCoord :=
  let unit_positions := unit_coords_excluding w unit_entity
  let passable_tiles := passable_coords w
  let port_tiles := port_coords w
  let starting_on_port := unit_hex ∈ port_tiles
  let distances := cvm_bfs passable_tiles port_tiles unit_hex movement_range starting_on_port
      (passable_tiles.length + 1) [(unit_hex, 0)] [unit_hex]
  (distances.filter (fun p =>
      0 < p.2 ∧ p.2 ≤ movement_range ∧ p.1 ∉ unit_positions)).map Prod.fst

/-- Association-list lookup only returns stored pairs. -/
theorem lookup_mem {α β : Type} [DecidableEq α] {l : List (α × β)} {k : α} {v : β}
    (h : l.lookup k = some v) : (k, v) ∈ l := by
  induction l with
  | nil => simp [List.lookup] at h
  | cons hd tl ih =>
    rw [List.lookup] at h
    by_cases hk : k = hd.1
    · subst hk
      simp at h
      subst h
      exact List.mem_cons_self _ _
    · have hbeq : (k == hd.1) = false := by
        simp [hk]
      rw [hbeq] at h
      exact List.mem_cons_of_mem _ (ih h)

/-- Every member of the `passable_tiles` set has a non-Sea tile entity recorded
at that coordinate. -/
theorem mem_passable_coords {w : GameWorld} {c : HexCoord} (h : c ∈ passable_coords w) :
    ∃ e tile, get_hex_position w e = some c ∧ get_tile w e = some tile ∧
      tile.tile_type ≠ TileType.Sea := by
  simp only [passable_coords, List.mem_filterMap] at h
  obtain ⟨e, _, hmatch⟩ := h
  refine ⟨e, ?_⟩
  rcases hpos : get_hex_position w e with _ | coord <;> rw [hpos] at hmatch
  · simp at hmatch
  · rcases htile : get_tile w e with _ | tile <;> rw [htile] at hmatch
    · simp at hmatch
    · by_cases hsea : tile.tile_type = TileType.Sea
      · simp [hsea] at hmatch
      · simp [hsea] at hmatch
        subst hmatch
        exact ⟨tile, rfl, rfl, hsea⟩

/-- C8: `find_path(a, a)` is the one-element path `[a]`, and `find_path(a, b)` for
`a ≠ b` is `None` whenever every tile recorded at `b` is a Sea tile (a Sea
destination is never passable, so the reachability check fails before any port or
BFS logic runs). -/
theorem claim_C8_find_path_self_and_sea :
    (∀ (align : HexCoord → HexCoord → HexCoord → Int) (w : GameWorld) (a : HexCoord),
      find_path align w a a = some [a]) ∧
    (∀ (align : HexCoord → HexCoord → HexCoord → Int) (w : GameWorld) (a b : HexCoord),
      a ≠ b →
      (∀ p ∈ w.tiles, get_hex_position w p.1 = some b → p.2.tile_type = TileType.Sea) →
      find_path align w a b = none) := by
  constructor
  · intro align w a
    simp [find_path]
  · intro align w a b hne hsea
    have hnp : b ∉ passable_coords w := by
      intro hmem
      obtain ⟨e, tile, hpos, htile, hns⟩ := mem_passable_coords hmem
      exact hns (hsea (e, tile) (lookup_mem htile) hpos)
    simp [find_path, hne, hnp]

/-- A baseline resource block for concrete test worlds. -/
def baseRes : GameResources where
  rng_seed := 0
  valid_move_tiles := []
  current_faction := Faction.Redosia
  actions_remaining := 5
  turn_number := 1
  faction_eliminated := [false, false, false, false]
  faction_morale := [0, 0, 0, 0]
  speech_used := false
  turn_order := []
  current_unit_index := 0
  difficulty := Difficulty.Easy

/-- A two-tile world: Land at (3,3), Sea at (4,3), no units. -/
def seaWorld : GameWorld where
  units := []
  tiles := [(1, ⟨TileType.Land, none⟩), (2, ⟨TileType.Sea, none⟩)]
  hexPositions := [(1, ⟨3, 3⟩), (2, ⟨4, 3⟩)]
  movements := []
  selected := []
  resources := baseRes

theorem claim_C8_witness :
    find_path (fun _ _ _ => 0) seaWorld ⟨3, 3⟩ ⟨3, 3⟩ = some [⟨3, 3⟩] ∧
    find_path (fun _ _ _ => 0) seaWorld ⟨3, 3⟩ ⟨4, 3⟩ = none :=
  ⟨claim_C8_find_path_self_and_sea.1 _ _ _,
   claim_C8_find_path_self_and_sea.2 _ seaWorld ⟨3, 3⟩ ⟨4, 3⟩ (by decide) (by decide)⟩

/-- C10: occupied tiles are excluded only from the returned destination set, not
from BFS traversal: membership in `calculate_valid_moves` is exactly membership in
the unit-free reachable set minus coordinates occupied by other units, so a tile
reachable only through occupied tiles is still returned. -/
theorem claim_C10_occupied_tiles_only_filter_endpoints :
    ∀ (w : GameWorld) (e : Nat) (unit_hex : HexCoord) (movement_range : Int) (c : HexCoord),
      c ∈ calculate_valid_moves w e unit_hex movement_range ↔
        (c ∉ unit_coords_excluding w e ∧
          c ∈ calculate_valid_moves { w with units := [] } e unit_hex movement_range) := by
  intro w e unit_hex movement_range c
  have h1 : passable_coords { w with units := [] } = passable_coords w := rfl
  have h2 : port_coords { w with units := [] } = port_coords w := rfl
  have h3 : unit_coords_excluding { w with units := [] } e = [] := rfl
  simp only [calculate_valid_moves, h1, h2, h3]
  simp only [List.mem_map, List.mem_filter, decide_eq_true_eq, List.not_mem_nil,
    not_false_iff, and_true]
  constructor
  · rintro ⟨p, ⟨hpD, hlt, hle, hnu⟩, rfl⟩
    exact ⟨hnu, p, ⟨hpD, hlt, hle⟩, rfl⟩
  · rintro ⟨hnu, p, ⟨hpD, hlt, hle⟩, rfl⟩
    exact ⟨p, ⟨hpD, hlt, hle, hnu⟩, rfl⟩

/-! ## Units, movement start, combat (src/systems/unit.rs, src/systems/combat.rs) -/

/-- `despawn_unit` (src/systems/unit.rs lines 99-113): the engine/text-entity
despawn commands are rendering side effects; the game-state effect is removing
the entity from every component table (`despawn_entities`). -/
def despawn_unit (w : GameWorld) (e : Nat) : GameWorld :=
  { w with units := w.units.filter (fun p => p.1 ≠ e)
           tiles := w.tiles.filter (fun p => p.1 ≠ e)
           hexPositions := w.hexPositions.filter (fun p => p.1 ≠ e)
           movements := w.movements.filter (fun p => p.1 ≠ e)
           selected := w.selected.filter (fun x => x ≠ e) }

/-- `move_unit_to` (src/systems/unit.rs lines 115-143): attach a `Movement`
component along a found path; silent no-op when the entity has no position, no
path exists, or the path is a single hex. -/
def move_unit_to (align : HexCoord → HexCoord → HexCoord → Int) (w : GameWorld)
    (unit_entity : Nat) (destination : HexCoord) : GameWorld :=
  match get_hex_position w unit_entity with
  | none => w
  | some start =>
    match find_path align w start destination with
    | none => w
    | some path =>
      if path.length < 2 then w
      else set_movement w unit_entity
        { path := path, current_segment := 0, segment_progress := 0, speed := UNIT_MOVEMENT_SPEED }

/-- `CombatResult` (src/systems/combat.rs lines 8-13). -/
structure CombatResult where
  attacker_faction : Faction
  defender_faction : Faction
  attacker_survived : Bool
  defender_survived : Bool
deriving DecidableEq, Repr

/-- `get_defense_bonus_at` (src/systems/combat.rs lines 90-103). -/
def get_defense_bonus_at (w : GameWorld) (coord : HexCoord) : ℚ :=
  ((queryHexTile w).findSome? (fun e =>
    match get_hex_position w e with
    | none => none
    | some hex =>
      if hex = coord then (get_tile w e).map (fun t => tile_defense_bonus t.tile_type)
      else none)).getD 1

/-- `update_tile_ownership` (src/systems/combat.rs lines 105-120). -/
def update_tile_ownership (w : GameWorld) (coord : HexCoord) (faction : Faction) : GameWorld :=
  let tile_entity := (queryHexTile w).find? (fun e =>
    ((get_hex_position w e).map (fun hex => hex == coord)).getD false)
  match tile_entity with
  | some e =>
    match get_tile w e with
    | some tile => set_tile w e { tile with faction := some faction }
    | none => w
  | none => w

/-- `resolve_combat` (src/systems/combat.rs lines 15-88).  The `f32` strength and
casualty arithmetic is modeled exactly over `ℚ`: for soldiers in 0..=99 and
morale in -50..=50 the `f32` products round to values with the same order
relations and floors as the exact rationals. -/
def resolve_combat (align : HexCoord → HexCoord → HexCoord → Int) (w : GameWorld)
    (attacker_entity defender_entity : Nat) : Option (CombatResult × GameWorld) :=
  match get_unit w attacker_entity, get_unit w defender_entity,
      get_hex_position w defender_entity with
  | some attacker, some defender, some defender_hex =>
    let attacker_faction := attacker.faction
    let defender_faction := defender.faction
    let defense_bonus := get_defense_bonus_at w defender_hex
    let attacker_strength : ℚ := (attacker.soldiers : ℚ) * (1 + (attacker.morale : ℚ) / 100)
    let defender_strength : ℚ :=
      (defender.soldiers : ℚ) * (1 + (defender.morale : ℚ) / 100) * defense_bonus
    if attacker_strength > defender_strength then
      let attacker_casualties : Int := ⌊(defender.soldiers : ℚ) * 0.7⌋
      let attacker_new_soldiers := attacker.soldiers - attacker_casualties
      let w1 := despawn_unit w defender_entity
      if 0 < attacker_new_soldiers then
        let w2 :=
          match get_unit w1 attacker_entity with
          | some unit =>
            set_unit w1 attacker_entity
              { unit with soldiers := attacker_new_soldiers, has_moved := true }
          | none => w1
        let w3 := move_unit_to align w2 attacker_entity defender_hex
        let w4 := update_tile_ownership w3 defender_hex attacker_faction
        let res2 := modify_faction_morale
          (modify_faction_morale w4.resources attacker_faction 2) defender_faction (-2)
        some ({ attacker_faction := attacker_faction, defender_faction := defender_faction,
                attacker_survived := true, defender_survived := false },
              { w4 with resources := res2 })
      else
        let w2 := despawn_unit w1 attacker_entity
        let res2 := modify_faction_morale
          (modify_faction_morale w2.resources attacker_faction 2) defender_faction (-2)
        some ({ attacker_faction := attacker_faction, defender_faction := defender_faction,
                attacker_survived := false, defender_survived := false },
              { w2 with resources := res2 })
    else
      let defender_casualties : Int := ⌊(attacker.soldiers : ℚ) * 0.5⌋
      let defender_new_soldiers := defender.soldiers - defender_casualties
      let w1 := despawn_unit w attacker_entity
      if 0 < defender_new_soldiers then
        let w2 :=
          match get_unit w1 defender_entity with
          | some unit => set_unit w1 defender_entity { unit with soldiers := defender_new_soldiers }
          | none => w1
        let res2 := modify_faction_morale
          (modify_faction_morale w2.resources defender_faction 2) attacker_faction (-2)
        some ({ attacker_faction := attacker_faction, defender_faction := defender_faction,
                attacker_survived := false, defender_survived := true },
              { w2 with resources := res2 })
      else
        let w2 := despawn_unit w1 defender_entity
        let res2 := modify_faction_morale
          (modify_faction_morale w2.resources defender_faction 2) attacker_faction (-2)
        some ({ attacker_faction := attacker_faction, defender_faction := defender_faction,
                attacker_survived := false, defender_survived := false },
              { w2 with resources := res2 })
  | _, _, _ => none

/-! ## Tile ownership & morale deltas (src/systems/tile_ownership.rs) -/

/-- `morale_change_for_capture` (src/systems/tile_ownership.rs lines 11-21). -/
def morale_change_for_capture (tile_type : TileType) (was_enemy : Bool) : Int :=
  match tile_type, was_enemy with
  | .Capital, true => 10
  | .City, true => 3
  | .City, false => 2
  | .Port, true => 2
  | .Port, false => 1
  | _, true => 1
  | _, false => 0

/-- `morale_change_for_loss` (src/systems/tile_ownership.rs lines 23-29). -/
def morale_change_for_loss : TileType → Int
  | .City => -3
  | .Capital => -3
  | .Port => -2
  | _ => -1

/-- `TileCapture` (src/systems/tile_ownership.rs lines 5-9). -/
structure TileCapture where
  coord : HexCoord
  tile_type : TileType
  faction : Faction
deriving DecidableEq, Repr

/-- The body of the tile loop of `tile_ownership_system` (src/systems/tile_ownership.rs
lines 44-90), named so the fold invariants can be stated. -/
def tile_ownership_step (unit_positions : List (HexCoord × Faction))
    (acc : List (Faction × Int) × List TileCapture × GameWorld) (entity : Nat) :
    List (Faction × Int) × List TileCapture × GameWorld :=
  let (morale_changes, captures, wc) := acc
  match get_hex_position wc entity with
  | none => acc
  | some coord =>
    match unit_positions.lookup coord, get_tile wc entity with
    | some unit_faction, some tile =>
      if tile.tile_type = TileType.Sea then acc
      else if tile.faction = some unit_faction then acc
      else
        let was_enemy := tile.faction.isSome
        let gain := morale_change_for_capture tile.tile_type was_enemy
        let mc1 :=
          if 0 < gain then morale_changes ++ [(unit_faction, gain)] else morale_changes
        let mc2 :=
          match tile.faction with
          | some old_faction => mc1 ++ [(old_faction, morale_change_for_loss tile.tile_type)]
          | none => mc1
        let caps :=
          if tile.tile_type = TileType.City ∨ tile.tile_type = TileType.Port ∨
              tile.tile_type = TileType.Capital then
            captures ++ [{ coord := coord, tile_type := tile.tile_type,
                           faction := unit_faction }]
          else captures
        (mc2, caps, set_tile wc entity { tile with faction := some unit_faction })
    | _, _ => acc

/-- `tile_ownership_system` (src/systems/tile_ownership.rs lines 31-97): transfer
ownership of every occupied tile whose owner differs from the occupant, collect
the morale deltas, then apply them through `modify_faction_morale`. -/
def tile_ownership_system (w : GameWorld) : List TileCapture × GameWorld :=
  let unit_positions : List (HexCoord × Faction) :=
    (queryHexUnit w).filterMap (fun e =>
      match get_hex_position w e, get_unit w e with
      | some coord, some unit => some (coord, unit.faction)
      | _, _ => none)
  let step := (queryHexTile w).foldl (tile_ownership_step unit_positions) ([], [], w)
  let finalRes := step.1.foldl
    (fun res (p : Faction × Int) => modify_faction_morale res p.1 p.2) step.2.2.resources
  (step.2.1, { step.2.2 with resources := finalRes })

/-! ## Association-table lemmas shared by the combat/turn proofs -/

theorem lookup_filter_ne {α : Type} {l : List (Nat × α)} {k e : Nat} (h : k ≠ e) :
    (l.filter (fun p => p.1 ≠ e)).lookup k = l.lookup k := by
  induction l with
  | nil => rfl
  | cons hd tl ih =>
    by_cases hd1 : hd.1 = e
    · have : (decide (hd.1 ≠ e)) = false := by simp [hd1]
      rw [List.filter_cons, this]
      simp only [Bool.false_eq_true, if_false]
      rw [ih, List.lookup]
      have : (k == hd.1) = false := by simp [hd1, h]
      rw [this]
    · have : (decide (hd.1 ≠ e)) = true := by simp [hd1]
      rw [List.filter_cons, this]
      simp only [if_true]
      rw [List.lookup, List.lookup]
      by_cases hk : k = hd.1
      · simp [hk]
      · have hb : (k == hd.1) = false := by simp [hk]
        rw [hb, ih]

theorem lookup_filter_self {α : Type} {l : List (Nat × α)} {e : Nat} :
    (l.filter (fun p => p.1 ≠ e)).lookup e = none := by
  induction l with
  | nil => rfl
  | cons hd tl ih =>
    by_cases hd1 : hd.1 = e
    · have : (decide (hd.1 ≠ e)) = false := by simp [hd1]
      rw [List.filter_cons, this]
      simp only [Bool.false_eq_true, if_false]
      exact ih
    · have : (decide (hd.1 ≠ e)) = true := by simp [hd1]
      rw [List.filter_cons, this]
      simp only [if_true]
      rw [List.lookup]
      have hb : (e == hd.1) = false := by
        simp only [beq_eq_false_iff_ne, ne_eq]
        omega
      rw [hb]
      exact ih

theorem lookup_map_set_self {α : Type} {l : List (Nat × α)} {e : Nat} {u : α} {v : α}
    (h : l.lookup e = some v) :
    (l.map (fun p => if p.1 = e then (e, u) else p)).lookup e = some u := by
  induction l with
  | nil => simp [List.lookup] at h
  | cons hd tl ih =>
    rw [List.map_cons]
    by_cases hd1 : hd.1 = e
    · simp only [hd1, if_true]
      rw [List.lookup]
      simp
    · simp only [hd1, if_false]
      rw [List.lookup] at h ⊢
      have hb : (e == hd.1) = false := by
        simp only [beq_eq_false_iff_ne, ne_eq]
        omega
      rw [hb] at h ⊢
      exact ih h

theorem lookup_map_set_ne {α : Type} {l : List (Nat × α)} {k e : Nat} {u : α} (h : k ≠ e) :
    (l.map (fun p => if p.1 = e then (e, u) else p)).lookup k = l.lookup k := by
  induction l with
  | nil => rfl
  | cons hd tl ih =>
    rw [List.map_cons]
    by_cases hd1 : hd.1 = e
    · simp only [hd1, if_true]
      rw [List.lookup, List.lookup]
      have hb : (k == e) = false := by simp [h]
      have hb2 : (k == hd.1) = false := by simp [hd1, h]
      rw [hb, hb2]
      exact ih
    · simp only [hd1, if_false]
      rw [List.lookup, List.lookup]
      by_cases hk : k = hd.1
      · simp [hk]
      · have hb : (k == hd.1) = false := by simp [hk]
        rw [hb]
        exact ih

/-! ## C1: combat tie -/

/-- A symmetric 10v10 combat: both units soldiers=10, morale=0, defender on a
plain Land tile (defense bonus 1.0). -/
def c1World : GameWorld where
  units := [(10, { faction := Faction.Redosia, soldiers := 10, morale := 0,
                   movement_range := 2, has_moved := false }),
            (11, { faction := Faction.Violetnam, soldiers := 10, morale := 0,
                   movement_range := 2, has_moved := false })]
  tiles := [(1, ⟨TileType.Land, some Faction.Redosia⟩), (2, ⟨TileType.Land, some Faction.Violetnam⟩)]
  hexPositions := [(1, ⟨0, 0⟩), (2, ⟨1, 0⟩), (10, ⟨0, 0⟩), (11, ⟨1, 0⟩)]
  movements := []
  selected := []
  resources := baseRes

unseal Rat.mul Rat.add Rat.sub Rat.inv Rat.ofScientific in
/-- C1 counterexample: at attacker (10, morale 0) vs defender (10, morale 0) on
defense bonus 1.0, the tie makes `attacker_strength > defender_strength` false,
so the DEFENDER wins: the attacker is destroyed and the defender survives with
`10 - floor(10 * 0.5) = 5` soldiers — not the claimed attacker victory with 3. -/
theorem claim_C1_counterexample :
    (resolve_combat (fun _ _ _ => 0) c1World 10 11).map
        (fun pr => (pr.1.attacker_survived, pr.1.defender_survived)) = some (false, true) ∧
    (resolve_combat (fun _ _ _ => 0) c1World 10 11).map
        (fun pr => get_unit pr.2 10) = some none ∧
    (resolve_combat (fun _ _ _ => 0) c1World 10 11).map
        (fun pr => (get_unit pr.2 11).map Unit.soldiers) = some (some 5) := by
  decide

/-- C1 amended: when attacker strength equals defender strength, the tie favors
the DEFENDER (the win condition is strict `>`): the attacker is always despawned,
the defender loses `floor(attacker.soldiers * 0.5)` soldiers and survives exactly
when its remaining soldiers are positive. -/
theorem claim_C1_amended_tie_favors_defender
    (align : HexCoord → HexCoord → HexCoord → Int) (w : GameWorld) (ae de : Nat)
    (A D : Unit) (dh : HexCoord) (hne : ae ≠ de)
    (hA : get_unit w ae = some A) (hD : get_unit w de = some D)
    (hH : get_hex_position w de = some dh)
    (heq : (A.soldiers : ℚ) * (1 + (A.morale : ℚ) / 100)
         = (D.soldiers : ℚ) * (1 + (D.morale : ℚ) / 100) * get_defense_bonus_at w dh) :
    (resolve_combat align w ae de).map Prod.fst =
      some { attacker_faction := A.faction, defender_faction := D.faction,
             attacker_survived := false,
             defender_survived := decide (0 < D.soldiers - ⌊(A.soldiers : ℚ) * 0.5⌋) } ∧
    (resolve_combat align w ae de).map (fun pr => get_unit pr.2 ae) = some none ∧
    (0 < D.soldiers - ⌊(A.soldiers : ℚ) * 0.5⌋ →
      (resolve_combat align w ae de).map (fun pr => get_unit pr.2 de) =
        some (some { D with soldiers := D.soldiers - ⌊(A.soldiers : ℚ) * 0.5⌋ })) ∧
    (D.soldiers - ⌊(A.soldiers : ℚ) * 0.5⌋ ≤ 0 →
      (resolve_combat align w ae de).map (fun pr => get_unit pr.2 de) = some none) := by
  have hde : de ≠ ae := fun h => hne h.symm
  simp only [resolve_combat, hA, hD, hH]
  rw [if_neg (by rw [heq]; exact lt_irrefl _)]
  have hD1 : ((despawn_unit w ae).units.lookup de) = some D := by
    simp only [despawn_unit]
    rw [lookup_filter_ne hde]
    exact hD
  by_cases hs : 0 < D.soldiers - ⌊(A.soldiers : ℚ) * 0.5⌋
  · rw [if_pos hs]
    have hdec : decide (0 < D.soldiers - ⌊(A.soldiers : ℚ) * 0.5⌋) = true := decide_eq_true hs
    refine ⟨by simp [hdec]; omega, ?_, fun _ => ?_, fun hc => absurd hs (not_lt.mpr hc)⟩
    · simp only [Option.map_some', get_unit, set_unit, hD1]
      rw [lookup_map_set_ne hne]
      simp only [despawn_unit]
      rw [lookup_filter_self]
    · simp only [Option.map_some', get_unit, set_unit, hD1]
      rw [lookup_map_set_self hD1]
  · rw [if_neg hs]
    have hdec : decide (0 < D.soldiers - ⌊(A.soldiers : ℚ) * 0.5⌋) = false :=
      decide_eq_false hs
    refine ⟨by simp [hdec]; omega, ?_, fun hc => absurd hc hs, fun _ => ?_⟩
    · simp only [Option.map_some', get_unit, despawn_unit]
      rw [lookup_filter_ne hne, lookup_filter_self]
    · simp only [Option.map_some', get_unit, despawn_unit]
      rw [lookup_filter_self]

theorem lookup_none_key_ne {α : Type} {l : List (Nat × α)} {k : Nat}
    (h : l.lookup k = none) : ∀ p ∈ l, p.1 ≠ k := by
  induction l with
  | nil => intro p hp; simp at hp
  | cons hd tl ih =>
    intro p hp
    rw [List.lookup] at h
    by_cases hk : k = hd.1
    · simp [hk] at h
    · have hb : (k == hd.1) = false := by simp [hk]
      rw [hb] at h
      rcases List.mem_cons.mp hp with rfl | hmem
      · omega
      · exact ih h p hmem

theorem filter_ne_of_lookup_none {α : Type} {l : List (Nat × α)} {k : Nat}
    (h : l.lookup k = none) : l.filter (fun p => p.1 ≠ k) = l := by
  apply List.filter_eq_self.mpr
  intro p hp
  simpa using lookup_none_key_ne h p hp

theorem lookup_append_none {α : Type} {l l2 : List (Nat × α)} {k : Nat}
    (h : l.lookup k = none) : (l ++ l2).lookup k = l2.lookup k := by
  induction l with
  | nil => rfl
  | cons hd tl ih =>
    rw [List.lookup] at h
    rw [List.cons_append, List.lookup]
    by_cases hk : k = hd.1
    · simp [hk] at h
    · have hb : (k == hd.1) = false := by simp [hk]
      rw [hb] at h ⊢
      exact ih h

theorem find_congr {α : Type} {p q : α → Bool} :
    ∀ {l : List α}, (∀ x ∈ l, p x = q x) → l.find? p = l.find? q := by
  intro l
  induction l with
  | nil => intro _; rfl
  | cons hd tl ih =>
    intro h
    rw [List.find?, List.find?, h hd (List.mem_cons_self _ _)]
    cases q hd
    · exact ih fun x hx => h x (List.mem_cons_of_mem _ hx)
    · rfl

/-! Field-preservation facts for the world-updating helpers. -/

theorem set_unit_tiles (w : GameWorld) (e : Nat) (u : Unit) :
    (set_unit w e u).tiles = w.tiles := rfl

theorem set_unit_hexPositions (w : GameWorld) (e : Nat) (u : Unit) :
    (set_unit w e u).hexPositions = w.hexPositions := rfl

theorem set_unit_movements (w : GameWorld) (e : Nat) (u : Unit) :
    (set_unit w e u).movements = w.movements := rfl

theorem set_unit_resources (w : GameWorld) (e : Nat) (u : Unit) :
    (set_unit w e u).resources = w.resources := rfl

theorem set_movement_resources (w : GameWorld) (e : Nat) (m : Movement) :
    (set_movement w e m).resources = w.resources := rfl

theorem move_unit_to_units (align : HexCoord → HexCoord → HexCoord → Int) (w : GameWorld)
    (e : Nat) (d : HexCoord) : (move_unit_to align w e d).units = w.units := by
  unfold move_unit_to
  split
  · rfl
  · split
    · rfl
    · split
      · rfl
      · rfl

theorem move_unit_to_tiles (align : HexCoord → HexCoord → HexCoord → Int) (w : GameWorld)
    (e : Nat) (d : HexCoord) : (move_unit_to align w e d).tiles = w.tiles := by
  unfold move_unit_to
  split
  · rfl
  · split
    · rfl
    · split
      · rfl
      · rfl

theorem move_unit_to_hexPositions (align : HexCoord → HexCoord → HexCoord → Int)
    (w : GameWorld) (e : Nat) (d : HexCoord) :
    (move_unit_to align w e d).hexPositions = w.hexPositions := by
  unfold move_unit_to
  split
  · rfl
  · split
    · rfl
    · split
      · rfl
      · rfl

theorem move_unit_to_resources (align : HexCoord → HexCoord → HexCoord → Int)
    (w : GameWorld) (e : Nat) (d : HexCoord) :
    (move_unit_to align w e d).resources = w.resources := by
  unfold move_unit_to
  split
  · rfl
  · split
    · rfl
    · split
      · rfl
      · rfl

theorem update_tile_ownership_units (w : GameWorld) (coord : HexCoord) (f : Faction) :
    (update_tile_ownership w coord f).units = w.units := by
  simp only [update_tile_ownership]
  split
  · split <;> rfl
  · rfl

theorem update_tile_ownership_movements (w : GameWorld) (coord : HexCoord) (f : Faction) :
    (update_tile_ownership w coord f).movements = w.movements := by
  simp only [update_tile_ownership]
  split
  · split <;> rfl
  · rfl

theorem update_tile_ownership_resources (w : GameWorld) (coord : HexCoord) (f : Faction) :
    (update_tile_ownership w coord f).resources = w.resources := by
  simp only [update_tile_ownership]
  split
  · split <;> rfl
  · rfl

theorem get_movement_set_movement (w : GameWorld) (e : Nat) (m : Movement) :
    get_movement (set_movement w e m) e = some m := by
  unfold get_movement set_movement
  by_cases h : (w.movements.lookup e).isSome
  · simp only [h, if_true]
    obtain ⟨v, hv⟩ := Option.isSome_iff_exists.mp h
    exact lookup_map_set_self hv
  · simp only [h, Bool.false_eq_true, if_false]
    have hn : w.movements.lookup e = none := Option.not_isSome_iff_eq_none.mp h
    rw [lookup_append_none hn, List.lookup]
    simp

/-- The effect of `update_tile_ownership` on the tile entity its search finds. -/
theorem update_tile_ownership_get_tile (w : GameWorld) (coord : HexCoord) (f : Faction)
    (te : Nat) (T : Tile)
    (hfind : (queryHexTile w).find? (fun e =>
      ((get_hex_position w e).map (fun hex => hex == coord)).getD false) = some te)
    (hT : get_tile w te = some T) :
    get_tile (update_tile_ownership w coord f) te = some { T with faction := some f } := by
  unfold update_tile_ownership
  rw [hfind]
  simp only [hT]
  unfold get_tile set_tile
  exact lookup_map_set_self hT

unseal Rat.mul Rat.add Rat.sub Rat.inv Rat.ofScientific in
theorem claim_C1_witness :
    (resolve_combat (fun _ _ _ => 0) c1World 10 11).map Prod.fst =
      some { attacker_faction := Faction.Redosia, defender_faction := Faction.Violetnam,
             attacker_survived := false,
             defender_survived := decide (0 < (10 : Int) - ⌊((10 : Int) : ℚ) * 0.5⌋) } ∧
    (resolve_combat (fun _ _ _ => 0) c1World 10 11).map (fun pr => get_unit pr.2 10) =
      some none :=
  let h := claim_C1_amended_tie_favors_defender (fun _ _ _ => 0) c1World 10 11
    { faction := Faction.Redosia, soldiers := 10, morale := 0,
      movement_range := 2, has_moved := false }
    { faction := Faction.Violetnam, soldiers := 10, morale := 0,
      movement_range := 2, has_moved := false }
    ⟨1, 0⟩ (by decide) (by decide) (by decide) (by decide) (by decide)
  ⟨h.1, h.2.1⟩

/-- Resources for the C4 scenario: attacker faction morale already at the +50 cap. -/
def c4Res : GameResources := { baseRes with faction_morale := [50, 0, 0, 0] }

/-- Attacker (Redosia, 10 soldiers) adjacent to a weaker defender (Violetnam,
5 soldiers) on Land; Redosia's shared morale already 50. -/
def c4World : GameWorld where
  units := [(10, { faction := Faction.Redosia, soldiers := 10, morale := 0,
                   movement_range := 2, has_moved := false }),
            (11, { faction := Faction.Violetnam, soldiers := 5, morale := 0,
                   movement_range := 2, has_moved := false })]
  tiles := [(1, { tile_type := TileType.Land, faction := some Faction.Redosia }),
            (2, { tile_type := TileType.Land, faction := some Faction.Violetnam })]
  hexPositions := [(1, HexCoord.mk 0 0), (2, HexCoord.mk 1 0), (10, HexCoord.mk 0 0),
                   (11, HexCoord.mk 1 0)]
  movements := []
  selected := []
  resources := c4Res

unseal Rat.mul Rat.add Rat.sub Rat.inv Rat.ofScientific in
/-- C4 counterexample: the winning attacker's faction morale does NOT always
change by +2 — `modify_faction_morale` clamps to [-50, 50].  With Redosia's
morale already at 50 the attacker wins (10 vs 5) and the morale stays 50, not
52. -/
theorem claim_C4_counterexample :
    (resolve_combat (fun _ _ _ => 0) c4World 10 11).map
        (fun pr => get_faction_morale pr.2.resources Faction.Redosia) = some 50 ∧
    ¬ ((resolve_combat (fun _ _ _ => 0) c4World 10 11).map
        (fun pr => get_faction_morale pr.2.resources Faction.Redosia) =
      some (get_faction_morale c4World.resources Faction.Redosia + 2)) ∧
    (resolve_combat (fun _ _ _ => 0) c4World 10 11).map
        (fun pr => pr.1.attacker_survived) = some true := by
  decide

/-- C4 amended: with attacker strength strictly greater, the defender is always
despawned; the attacker loses `floor(defender.soldiers * 0.7)` soldiers,
survives iff its remaining soldiers are positive (keeping `has_moved := true`),
the defender hex's tile is captured for the attacker's faction, a Movement
toward the defender hex is attached when `find_path` yields a real path, and
the faction morale pools change by +2 and -2 THROUGH `modify_faction_morale`, i.e.
clamped to [-50, 50] rather than by a raw ±2. -/
theorem claim_C4_amended_attacker_win_effects
    (align : HexCoord → HexCoord → HexCoord → Int) (w : GameWorld) (ae de te : Nat)
    (A D : Unit) (T : Tile) (dh apos : HexCoord)
    (hne : ae ≠ de)
    (hA : get_unit w ae = some A) (hD : get_unit w de = some D)
    (hH : get_hex_position w de = some dh)
    (hApos : get_hex_position w ae = some apos)
    (hTde : get_tile w de = none)
    (hT : get_tile w te = some T)
    (hfind : (queryHexTile w).find? (fun e =>
      ((get_hex_position w e).map (fun hex => hex == dh)).getD false) = some te)
    (hgt : (A.soldiers : ℚ) * (1 + (A.morale : ℚ) / 100)
         > (D.soldiers : ℚ) * (1 + (D.morale : ℚ) / 100) * get_defense_bonus_at w dh) :
    (resolve_combat align w ae de).map Prod.fst =
      some { attacker_faction := A.faction, defender_faction := D.faction,
             attacker_survived := decide (0 < A.soldiers - ⌊(D.soldiers : ℚ) * 0.7⌋),
             defender_survived := false } ∧
    (resolve_combat align w ae de).map (fun pr => get_unit pr.2 de) = some none ∧
    (resolve_combat align w ae de).map (fun pr => pr.2.resources.faction_morale) =
      some ((modify_faction_morale (modify_faction_morale w.resources A.faction 2)
              D.faction (-2)).faction_morale) ∧
    (0 < A.soldiers - ⌊(D.soldiers : ℚ) * 0.7⌋ →
      (resolve_combat align w ae de).map (fun pr => get_unit pr.2 ae) =
        some (some
          { A with soldiers := A.soldiers - ⌊(D.soldiers : ℚ) * 0.7⌋, has_moved := true })) ∧
    (A.soldiers - ⌊(D.soldiers : ℚ) * 0.7⌋ ≤ 0 →
      (resolve_combat align w ae de).map (fun pr => get_unit pr.2 ae) = some none) ∧
    (0 < A.soldiers - ⌊(D.soldiers : ℚ) * 0.7⌋ →
      (resolve_combat align w ae de).map (fun pr => get_tile pr.2 te) =
        some (some { T with faction := some A.faction })) ∧
    (0 < A.soldiers - ⌊(D.soldiers : ℚ) * 0.7⌋ →
      ∀ p : List HexCoord,
        find_path align (set_unit (despawn_unit w de) ae
          { A with soldiers := A.soldiers - ⌊(D.soldiers : ℚ) * 0.7⌋, has_moved := true })
          apos dh = some p →
        ¬ p.length < 2 →
        (resolve_combat align w ae de).map (fun pr => get_movement pr.2 ae) =
          some (some { path := p, current_segment := 0, segment_progress := 0,
                       speed := UNIT_MOVEMENT_SPEED })) := by
  have hde : de ≠ ae := Ne.symm hne
  have hA1 : get_unit (despawn_unit w de) ae = some A := by
    simp only [get_unit, despawn_unit]
    rw [lookup_filter_ne hne]
    exact hA
  simp only [resolve_combat, hA, hD, hH]
  rw [if_pos hgt]
  by_cases hs : 0 < A.soldiers - ⌊(D.soldiers : ℚ) * 0.7⌋
  · rw [if_pos hs]
    simp only [hA1]
    refine ⟨by simp [decide_eq_true hs]; omega, ?_, ?_, fun _ => ?_,
      fun hc => absurd hs (not_lt.mpr hc), fun _ => ?_, fun _ => ?_⟩
    · simp only [Option.map_some', get_unit, update_tile_ownership_units, move_unit_to_units,
        set_unit, despawn_unit]
      rw [lookup_map_set_ne hde, lookup_filter_self]
    · simp only [Option.map_some', update_tile_ownership_resources, move_unit_to_resources,
        set_unit_resources, despawn_unit]
    · simp only [Option.map_some', get_unit, update_tile_ownership_units, move_unit_to_units,
        set_unit, despawn_unit]
      rw [lookup_map_set_self (show ((w.units.filter (fun p => p.1 ≠ de)).lookup ae) = some A by
        rw [lookup_filter_ne hne]; exact hA)]
    · simp only [Option.map_some']
      have htilesEq : (move_unit_to align (set_unit (despawn_unit w de) ae
          { A with soldiers := A.soldiers - ⌊(D.soldiers : ℚ) * 0.7⌋, has_moved := true })
          ae dh).tiles = w.tiles := by
        rw [move_unit_to_tiles, set_unit_tiles]
        simp only [despawn_unit]
        exact filter_ne_of_lookup_none hTde
      have hhexEq : ∀ x, x ≠ de → (move_unit_to align (set_unit (despawn_unit w de) ae
          { A with soldiers := A.soldiers - ⌊(D.soldiers : ℚ) * 0.7⌋, has_moved := true })
          ae dh).hexPositions.lookup x = w.hexPositions.lookup x := by
        intro x hx
        rw [move_unit_to_hexPositions, set_unit_hexPositions]
        simp only [despawn_unit]
        exact lookup_filter_ne hx
      have hkeys : ∀ x ∈ w.tiles.map Prod.fst, x ≠ de := by
        intro x hx
        obtain ⟨p, hp, rfl⟩ := List.mem_map.mp hx
        exact lookup_none_key_ne hTde p hp
      have hquery : queryHexTile (move_unit_to align (set_unit (despawn_unit w de) ae
          { A with soldiers := A.soldiers - ⌊(D.soldiers : ℚ) * 0.7⌋, has_moved := true })
          ae dh) = queryHexTile w := by
        simp only [queryHexTile, htilesEq]
        apply List.filter_congr
        intro x hx
        rw [hhexEq x (hkeys x hx)]
      have hkeys2 : ∀ x ∈ queryHexTile w, x ≠ de := by
        intro x hx
        simp only [queryHexTile, List.mem_filter] at hx
        exact hkeys x hx.1
      have hfind3 : (queryHexTile (move_unit_to align (set_unit (despawn_unit w de) ae
          { A with soldiers := A.soldiers - ⌊(D.soldiers : ℚ) * 0.7⌋, has_moved := true })
          ae dh)).find? (fun e =>
            ((get_hex_position (move_unit_to align (set_unit (despawn_unit w de) ae
              { A with soldiers := A.soldiers - ⌊(D.soldiers : ℚ) * 0.7⌋, has_moved := true })
              ae dh) e).map (fun hex => hex == dh)).getD false) = some te := by
        rw [hquery]
        rw [find_congr (fun x hx => by
          simp only [get_hex_position]
          rw [hhexEq x (hkeys2 x hx)])]
        exact hfind
      have hT3 : get_tile (move_unit_to align (set_unit (despawn_unit w de) ae
          { A with soldiers := A.soldiers - ⌊(D.soldiers : ℚ) * 0.7⌋, has_moved := true })
          ae dh) te = some T := by
        simp only [get_tile, htilesEq]
        exact hT
      exact congrArg some (update_tile_ownership_get_tile _ dh A.faction te T hfind3 hT3)
    · intro p hp hlen
      simp only [Option.map_some', get_movement, update_tile_ownership_movements]
      have hpos2 : get_hex_position (set_unit (despawn_unit w de) ae
          { A with soldiers := A.soldiers - ⌊(D.soldiers : ℚ) * 0.7⌋, has_moved := true })
          ae = some apos := by
        simp only [get_hex_position, set_unit_hexPositions, despawn_unit]
        rw [lookup_filter_ne hne]
        exact hApos
      have hw3eq : move_unit_to align (set_unit (despawn_unit w de) ae
          { A with soldiers := A.soldiers - ⌊(D.soldiers : ℚ) * 0.7⌋, has_moved := true })
          ae dh = set_movement (set_unit (despawn_unit w de) ae
          { A with soldiers := A.soldiers - ⌊(D.soldiers : ℚ) * 0.7⌋, has_moved := true }) ae
          { path := p, current_segment := 0, segment_progress := 0,
            speed := UNIT_MOVEMENT_SPEED } := by
        unfold move_unit_to
        simp only [hpos2, hp]
        rw [if_neg hlen]
      rw [hw3eq]
      exact congrArg some (get_movement_set_movement _ ae _)
  · rw [if_neg hs]
    refine ⟨by simp [decide_eq_false hs]; omega, ?_, ?_, fun hc => absurd hc hs,
      fun _ => ?_, fun hc => absurd hc hs, fun hc => absurd hc hs⟩
    · simp only [Option.map_some', get_unit, despawn_unit]
      rw [lookup_filter_ne hde, lookup_filter_self]
    · simp only [Option.map_some', despawn_unit]
    · simp only [Option.map_some', get_unit, despawn_unit]
      rw [lookup_filter_self]

unseal Rat.mul Rat.add Rat.sub Rat.inv Rat.ofScientific in
theorem claim_C4_witness :
    (resolve_combat (fun _ _ _ => 0) c4World 10 11).map Prod.fst =
      some { attacker_faction := Faction.Redosia, defender_faction := Faction.Violetnam,
             attacker_survived := decide (0 < (10 : Int) - ⌊((5 : Int) : ℚ) * 0.7⌋),
             defender_survived := false } ∧
    (resolve_combat (fun _ _ _ => 0) c4World 10 11).map (fun pr => get_unit pr.2 11) =
      some none ∧
    (resolve_combat (fun _ _ _ => 0) c4World 10 11).map
        (fun pr => pr.2.resources.faction_morale) =
      some ((modify_faction_morale (modify_faction_morale c4World.resources Faction.Redosia 2)
              Faction.Violetnam (-2)).faction_morale) :=
  let h := claim_C4_amended_attacker_win_effects (fun _ _ _ => 0) c4World 10 11 2
    { faction := Faction.Redosia, soldiers := 10, morale := 0,
      movement_range := 2, has_moved := false }
    { faction := Faction.Violetnam, soldiers := 5, morale := 0,
      movement_range := 2, has_moved := false }
    { tile_type := TileType.Land, faction := some Faction.Violetnam }
    (HexCoord.mk 1 0) (HexCoord.mk 0 0)
    (by decide) (by decide) (by decide) (by decide) (by decide) (by decide) (by decide)
    (by decide) (by decide)
  ⟨h.1, h.2.1, h.2.2.1⟩

/-! ## C9: the faction morale pool stays within [-50, 50] -/

/-- Every entry of the shared `faction_morale` pool lies in [-50, 50]. -/
def moraleInRange (res : GameResources) : Prop :=
  ∀ m ∈ res.faction_morale, -50 ≤ m ∧ m ≤ 50

instance (res : GameResources) : Decidable (moraleInRange res) := by
  unfold moraleInRange
  infer_instance

/-- `modify_faction_morale` clamps, so it preserves (in fact re-establishes) the
morale range for the touched entry and leaves the others alone. -/
theorem modify_faction_morale_preserves (res : GameResources) (f : Faction) (delta : Int)
    (h : moraleInRange res) : moraleInRange (modify_faction_morale res f delta) := by
  intro m hm
  simp only [modify_faction_morale] at hm
  rcases List.mem_or_eq_of_mem_set hm with hmem | rfl
  · exact h m hmem
  · constructor <;> omega

theorem foldl_modify_preserves (l : List (Faction × Int)) :
    ∀ res : GameResources, moraleInRange res →
      moraleInRange (l.foldl (fun r (p : Faction × Int) => modify_faction_morale r p.1 p.2) res) := by
  induction l with
  | nil => intro res h; exact h
  | cons hd tl ih =>
    intro res h
    exact ih _ (modify_faction_morale_preserves res hd.1 hd.2 h)

theorem tile_ownership_step_resources (up : List (HexCoord × Faction))
    (acc : List (Faction × Int) × List TileCapture × GameWorld) (e : Nat) :
    (tile_ownership_step up acc e).2.2.resources = acc.2.2.resources := by
  obtain ⟨mc, caps, wc⟩ := acc
  simp only [tile_ownership_step]
  split
  · rfl
  · split
    · split
      · rfl
      · split
        · rfl
        · rfl
    · rfl

theorem foldl_tile_ownership_step_resources (up : List (HexCoord × Faction)) :
    ∀ (l : List Nat) (acc : List (Faction × Int) × List TileCapture × GameWorld),
      (l.foldl (tile_ownership_step up) acc).2.2.resources = acc.2.2.resources := by
  intro l
  induction l with
  | nil => intro acc; rfl
  | cons hd tl ih =>
    intro acc
    rw [List.foldl_cons, ih, tile_ownership_step_resources]

theorem resolve_combat_morale_preserved (align : HexCoord → HexCoord → HexCoord → Int)
    (w : GameWorld) (ae de : Nat) (h : moraleInRange w.resources) :
    moraleInRange (((resolve_combat align w ae de).map (fun pr => pr.2.resources)).getD
      w.resources) := by
  unfold resolve_combat
  split
  · dsimp only
    split
    · split
      · split
        all_goals
          simp only [Option.map_some', Option.getD_some, update_tile_ownership_resources,
            move_unit_to_resources, set_unit_resources, despawn_unit]
          exact modify_faction_morale_preserves _ _ _ (modify_faction_morale_preserves _ _ _ h)
      · simp only [Option.map_some', Option.getD_some, despawn_unit]
        exact modify_faction_morale_preserves _ _ _ (modify_faction_morale_preserves _ _ _ h)
    · split
      · split
        all_goals
          simp only [Option.map_some', Option.getD_some, set_unit_resources, despawn_unit]
          exact modify_faction_morale_preserves _ _ _ (modify_faction_morale_preserves _ _ _ h)
      · simp only [Option.map_some', Option.getD_some, despawn_unit]
        exact modify_faction_morale_preserves _ _ _ (modify_faction_morale_preserves _ _ _ h)
  · simpa using h

theorem tile_ownership_morale_preserved (w : GameWorld) (h : moraleInRange w.resources) :
    moraleInRange (tile_ownership_system w).2.resources := by
  unfold tile_ownership_system
  apply foldl_modify_preserves
  rw [foldl_tile_ownership_step_resources]
  exact h

/-- C9: every faction-morale mutation in the combat resolver and the tile
ownership system goes through `modify_faction_morale`, which clamps to
[-50, 50]; hence from any state with morale in range, the states these systems
produce have morale in range. -/
theorem claim_C9_morale_pool_stays_in_range :
    (∀ (res : GameResources) (f : Faction) (delta : Int),
      moraleInRange res → moraleInRange (modify_faction_morale res f delta)) ∧
    (∀ (align : HexCoord → HexCoord → HexCoord → Int) (w : GameWorld) (ae de : Nat),
      moraleInRange w.resources →
        moraleInRange (((resolve_combat align w ae de).map (fun pr => pr.2.resources)).getD
          w.resources)) ∧
    (∀ w : GameWorld, moraleInRange w.resources →
      moraleInRange (tile_ownership_system w).2.resources) :=
  ⟨modify_faction_morale_preserves,
   resolve_combat_morale_preserved,
   tile_ownership_morale_preserved⟩

unseal Rat.mul Rat.add Rat.sub Rat.inv Rat.ofScientific in
theorem claim_C9_witness :
    moraleInRange (modify_faction_morale baseRes Faction.Redosia 100) ∧
    moraleInRange (((resolve_combat (fun _ _ _ => 0) c1World 10 11).map
      (fun pr => pr.2.resources)).getD c1World.resources) ∧
    moraleInRange (tile_ownership_system c1World).2.resources :=
  ⟨claim_C9_morale_pool_stays_in_range.1 baseRes Faction.Redosia 100 (by decide),
   claim_C9_morale_pool_stays_in_range.2.1 (fun _ _ _ => 0) c1World 10 11 (by decide),
   claim_C9_morale_pool_stays_in_range.2.2 c1World (by decide)⟩

/-! ## Reinforcement (src/systems/reinforcement.rs) -/

/-- `PendingSpawn` (src/systems/reinforcement.rs lines 10-14). -/
structure PendingSpawn where
  coord : HexCoord
  faction : Faction
  soldiers : Int
deriving DecidableEq, Repr

/-- `ReinforcementEvent` (src/ecs.rs lines 177-182). -/
structure ReinforcementEvent where
  faction : Faction
  soldiers : Int
  location_name : String
deriving DecidableEq, Repr

/-- `tile_type_name` (src/systems/reinforcement.rs lines 16-23). -/
def tile_type_name : TileType → String
  | .Capital => "capital"
  | .City => "city"
  | .Port => "port"
  | _ => "tile"

/-- `CAPITAL_POSITIONS` (src/map.rs lines 6-11). -/
def CAPITAL_POSITIONS : List (Int × Int × Faction) :=
  [(2, 2, Faction.Redosia), (28, 2, Faction.Violetnam),
   (28, 18, Faction.Bluegaria), (2, 18, Faction.Greenland)]

/-- `get_capital_coord` (src/systems/reinforcement.rs lines 25-29). -/
def get_capital_coord (f : Faction) : HexCoord :=
  let p := CAPITAL_POSITIONS.getD (faction_index f) (0, 0, Faction.Redosia)
  { column := p.1, row := p.2.1 }

/-- Reinterpret a `u32` value as Rust's `as i32` cast (two's complement). -/
def u32_as_i32 (n : Nat) : Int :=
  if n % 4294967296 < 2147483648 then (n % 4294967296 : Int)
  else (n % 4294967296 : Int) - 4294967296

/-- The port grant `1 + (rng_seed as i32 % 3)` of src/systems/reinforcement.rs
line 101; Rust `%` on `i32` is the truncating remainder `Int.tmod`, which is
negative for seeds with the top bit set. -/
def port_bonus (seed : Nat) : Int := 1 + Int.tmod (u32_as_i32 seed) 3

/-- The wrapping LCG step `seed * 1103515245 + 12345` (src/systems/reinforcement.rs
lines 102-106 and src/map.rs lines 44-47). -/
def lcg_next (seed : Nat) : Nat := (seed * 1103515245 + 12345) % 4294967296

/-- One City/Capital grant iteration of `reinforcement_system` (lines 55-90). -/
def reinforcement_city_step (current_faction : Faction)
    (unit_positions : List (HexCoord × Nat))
    (acc : List PendingSpawn × GameWorld × List ReinforcementEvent)
    (info : HexCoord × TileType × Option Faction) :
    List PendingSpawn × GameWorld × List ReinforcementEvent :=
  let (pending, wc, events) := acc
  let (coord, tile_type, tile_faction) := info
  if tile_faction ≠ some current_faction then acc
  else if tile_type = TileType.City ∨ tile_type = TileType.Capital then
    let reinforcement := CITY_REINFORCEMENT
    match unit_positions.lookup coord with
    | some unit_entity =>
      match get_unit wc unit_entity with
      | some unit =>
        if unit.faction = current_faction then
          (pending,
           set_unit wc unit_entity
             { unit with soldiers := min (unit.soldiers + reinforcement) MAX_SOLDIERS },
           events ++ [{ faction := current_faction, soldiers := reinforcement,
                        location_name := tile_type_name tile_type }])
        else acc
      | none => acc
    | none =>
      (pending ++ [{ coord := coord, faction := current_faction, soldiers := reinforcement }],
       wc,
       events ++ [{ faction := current_faction, soldiers := reinforcement,
                    location_name := tile_type_name tile_type }])
  else acc

/-- The grant applied once the Port pass has drawn its bonus and found the
closest friendly unit (src/systems/reinforcement.rs lines 122-133). -/
def reinforcement_port_grant (current_faction : Faction) (pending : List PendingSpawn)
    (events : List ReinforcementEvent) (wc1 : GameWorld) (port_reinforcement : Int)
    (closest : Option (Nat × Int)) :
    List PendingSpawn × GameWorld × List ReinforcementEvent :=
  match closest with
  | some (unit_entity, _) =>
    match get_unit wc1 unit_entity with
    | some unit =>
      (pending,
       set_unit wc1 unit_entity
         { unit with soldiers := min (unit.soldiers + port_reinforcement) MAX_SOLDIERS },
       events ++ [{ faction := current_faction, soldiers := port_reinforcement,
                    location_name := "port" }])
    | none => (pending, wc1, events)
  | none => (pending, wc1, events)

/-- One Port grant iteration of `reinforcement_system` (lines 92-134): draw the
`1 + (seed as i32 % 3)` bonus, step the LCG, and grant the bonus to the nearest
friendly unit within distance 3 (first-found wins ties, via strict `<`). -/
def reinforcement_port_step (current_faction : Faction)
    (unit_positions : List (HexCoord × Nat))
    (acc : List PendingSpawn × GameWorld × List ReinforcementEvent)
    (info : HexCoord × TileType × Option Faction) :
    List PendingSpawn × GameWorld × List ReinforcementEvent :=
  let (pending, wc, events) := acc
  let (coord, tile_type, tile_faction) := info
  if tile_type ≠ TileType.Port then acc
  else if tile_faction ≠ some current_faction then acc
  else
    let port_reinforcement := port_bonus wc.resources.rng_seed
    let wc1 := { wc with resources :=
      { wc.resources with rng_seed := lcg_next wc.resources.rng_seed } }
    let closest := unit_positions.foldl
      (fun (best : Option (Nat × Int)) up =>
        let (unit_coord, unit_entity) := up
        let consider := fun (b : Option (Nat × Int)) =>
          let distance := hex_distance coord unit_coord
          if distance ≤ 3 ∧ (b.isNone ∨ distance < (b.map Prod.snd).getD 0) then
            some (unit_entity, distance)
          else b
        match get_unit wc1 unit_entity with
        | some unit => if unit.faction ≠ current_faction then best else consider best
        | none => consider best) none
    reinforcement_port_grant current_faction pending events wc1 port_reinforcement closest

/-- `reinforcement_system` (src/systems/reinforcement.rs lines 31-179): the
City/Capital pass, the Port pass, and the territory bonus, over snapshots of the
tile and unit tables.  The source iterates two `HashMap`s whose order is
arbitrary; the snapshots here are association lists in table order. -/
def reinforcement_system (w : GameWorld) :
    List PendingSpawn × GameWorld × List ReinforcementEvent :=
  let current_faction := w.resources.current_faction
  let tile_info : List (HexCoord × TileType × Option Faction) :=
    (queryHexTile w).filterMap (fun e =>
      match get_hex_position w e, get_tile w e with
      | some coord, some tile => some (coord, tile.tile_type, tile.faction)
      | _, _ => none)
  let unit_positions : List (HexCoord × Nat) :=
    (queryHexUnit w).filterMap (fun e =>
      (get_hex_position w e).map (fun coord => (coord, e)))
  let phase1 := tile_info.foldl (reinforcement_city_step current_faction unit_positions)
    ([], w, [])
  let phase2 := tile_info.foldl (reinforcement_port_step current_faction unit_positions)
    phase1
  let pending2 := phase2.1
  let w2 := phase2.2.1
  let events2 := phase2.2.2
  let territory_count := (tile_info.filter (fun info =>
    info.2.2 = some current_faction ∧ info.2.1 ≠ TileType.Sea)).length
  let territory_bonus : Int := ((territory_count / 10 : Nat) : Int)
  if 0 < territory_bonus then
    let capital_coord := get_capital_coord current_faction
    match unit_positions.lookup capital_coord with
    | some unit_entity =>
      match get_unit w2 unit_entity with
      | some unit =>
        if unit.faction = current_faction then
          (pending2,
           set_unit w2 unit_entity
             { unit with soldiers := min (unit.soldiers + territory_bonus) MAX_SOLDIERS },
           events2 ++ [{ faction := current_faction, soldiers := territory_bonus,
                         location_name := "territory" }])
        else (pending2, w2, events2)
      | none => (pending2, w2, events2)
    | none =>
      if ((tile_info.lookup capital_coord).map
          (fun p => p.2 == some current_faction)).getD false then
        (pending2 ++ [{ coord := capital_coord, faction := current_faction,
                        soldiers := max territory_bonus 1 }],
         w2,
         events2 ++ [{ faction := current_faction, soldiers := max territory_bonus 1,
                       location_name := "territory" }])
      else (pending2, w2, events2)
  else (pending2, w2, events2)

/-! ## Turn controller (src/systems/turn.rs, src/selection.rs, src/systems/ai.rs) -/

/-- `clear_selection` (src/selection.rs lines 24-30). -/
def clear_selection (w : GameWorld) : GameWorld :=
  { w with selected := [],
           resources := { w.resources with valid_move_tiles := [] } }

/-- `build_turn_order` (src/systems/ai.rs lines 93-108). -/
def build_turn_order (w : GameWorld) : GameWorld :=
  let current_faction := w.resources.current_faction
  let units := (queryHexUnit w).filter (fun e =>
    ((get_unit w e).map (fun u => u.faction == current_faction)).getD false)
  { w with resources := { w.resources with turn_order := units, current_unit_index := 0 } }

/-- The faction-skip loop of `end_turn` (src/systems/turn.rs lines 23-33): at most
4 advances past eliminated factions. -/
def skip_eliminated : Nat → List Bool → Faction → Faction
  | 0, _, f => f
  | attempts + 1, elim, f =>
    if elim.getD (faction_index f) false then skip_eliminated attempts elim (next_faction f)
    else f

/-- `TurnTransition` (src/systems/turn.rs lines 6-10). -/
structure TurnTransition where
  new_faction : Faction
  turn_number : Nat
  pending_spawns : List PendingSpawn

/-- `end_turn` (src/systems/turn.rs lines 12-52): clear selection, reset
`has_moved`, advance to the next non-eliminated faction (bounded skip loop),
bump `turn_number` when the cycle wraps to Redosia, reset the action budget and
speech flag, rebuild the turn order, and run reinforcement. -/
def end_turn (w : GameWorld) : TurnTransition × GameWorld × List ReinforcementEvent :=
  let w0 := clear_selection w
  let resetUnits := w0.units.map (fun (p : Nat × Unit) => (p.1, { p.2 with has_moved := false }))
  let w1 := { w0 with units := resetUnits }
  let next := skip_eliminated 4 w1.resources.faction_eliminated
    (next_faction w1.resources.current_faction)
  let w2 :=
    if next = Faction.Redosia then
      { w1 with resources := { w1.resources with turn_number := w1.resources.turn_number + 1 } }
    else w1
  let w3 := { w2 with resources :=
    { w2.resources with current_faction := next, actions_remaining := ACTIONS_PER_TURN,
                        speech_used := false } }
  let w4 := build_turn_order w3
  let r := reinforcement_system w4
  ({ new_faction := next, turn_number := r.2.1.resources.turn_number, pending_spawns := r.1 },
   r.2.1, r.2.2)

/-- `can_end_turn` (src/systems/turn.rs lines 54-56). -/
def can_end_turn (w : GameWorld) : Bool := (queryMovement w).isEmpty

/-- A world for the C3 counterexample: one Redosia-owned Port at (5,5), one
Redosia unit of 10 soldiers on it, and `rng_seed = 4294967294` (i.e. -2 as i32). -/
def c3World : GameWorld where
  units := [(2, { faction := Faction.Redosia, soldiers := 10, morale := 0,
                  movement_range := 2, has_moved := false })]
  tiles := [(1, { tile_type := TileType.Port, faction := some Faction.Redosia })]
  hexPositions := [(1, HexCoord.mk 5 5), (2, HexCoord.mk 5 5)]
  movements := []
  selected := []
  resources := { baseRes with rng_seed := 4294967294 }

/-- C3 counterexample: with `rng_seed = 4294967294` (`-2` as `i32`, so
`-2 % 3 = -2` in Rust), the "bonus" is `1 + (-2) = -1`: the reinforcement event
carries -1 soldiers and the nearest friendly unit LOSES a soldier (10 -> 9),
violating the claimed 1..=3 range. -/
theorem claim_C3_counterexample :
    (reinforcement_system c3World).2.2 =
      [{ faction := Faction.Redosia, soldiers := -1, location_name := "port" }] ∧
    get_unit (reinforcement_system c3World).2.1 2 =
      some { faction := Faction.Redosia, soldiers := 9, morale := 0,
             movement_range := 2, has_moved := false } ∧
    ¬ (1 ≤ port_bonus 4294967294 ∧ port_bonus 4294967294 ≤ 3) := by
  decide

/-- C3 amended: the Port bonus `1 + (rng_seed as i32 % 3)` granted by
`reinforcement_system` lies in 1..=3 exactly when the current seed read for that
draw is below 2^31 (nonnegative as `i32`); for seeds with the top bit set it
lies in -1..=1. -/
theorem claim_C3_amended_port_bonus_range :
    ∀ seed : Nat, seed % 4294967296 < 2147483648 →
      1 ≤ port_bonus seed ∧ port_bonus seed ≤ 3 := by
  intro s hs
  unfold port_bonus u32_as_i32
  rw [if_pos hs]
  have h0 : 0 ≤ ((s : Int) % 4294967296) := by omega
  rw [Int.tmod_eq_emod h0 (by norm_num)]
  omega

theorem claim_C3_witness : 1 ≤ port_bonus 7 ∧ port_bonus 7 ≤ 3 :=
  claim_C3_amended_port_bonus_range 7 (by decide)

/-! ## C7: end_turn faction advance -/

theorem reinforcement_city_step_resources (cf : Faction) (up : List (HexCoord × Nat))
    (acc : List PendingSpawn × GameWorld × List ReinforcementEvent)
    (info : HexCoord × TileType × Option Faction) :
    (reinforcement_city_step cf up acc info).2.1.resources = acc.2.1.resources := by
  obtain ⟨pending, wc, events⟩ := acc
  obtain ⟨coord, tt, tf⟩ := info
  simp only [reinforcement_city_step]
  repeat' split
  all_goals rfl

theorem reinforcement_port_grant_current_faction (cf : Faction) (pending : List PendingSpawn)
    (events : List ReinforcementEvent) (wc1 : GameWorld) (bonus : Int)
    (closest : Option (Nat × Int)) :
    (reinforcement_port_grant cf pending events wc1 bonus closest).2.1.resources.current_faction
      = wc1.resources.current_faction := by
  unfold reinforcement_port_grant
  split
  · split
    · rfl
    · rfl
  · rfl

theorem reinforcement_port_step_current_faction (cf : Faction) (up : List (HexCoord × Nat))
    (acc : List PendingSpawn × GameWorld × List ReinforcementEvent)
    (info : HexCoord × TileType × Option Faction) :
    (reinforcement_port_step cf up acc info).2.1.resources.current_faction =
      acc.2.1.resources.current_faction := by
  obtain ⟨pending, wc, events⟩ := acc
  obtain ⟨coord, tt, tf⟩ := info
  simp only [reinforcement_port_step]
  split
  · rfl
  · split
    · rfl
    · rw [reinforcement_port_grant_current_faction]

theorem foldl_city_step_resources (cf : Faction) (up : List (HexCoord × Nat)) :
    ∀ (l : List (HexCoord × TileType × Option Faction))
      (acc : List PendingSpawn × GameWorld × List ReinforcementEvent),
      (l.foldl (reinforcement_city_step cf up) acc).2.1.resources = acc.2.1.resources := by
  intro l
  induction l with
  | nil => intro acc; rfl
  | cons hd tl ih =>
    intro acc
    rw [List.foldl_cons, ih, reinforcement_city_step_resources]

theorem foldl_port_step_current_faction (cf : Faction) (up : List (HexCoord × Nat)) :
    ∀ (l : List (HexCoord × TileType × Option Faction))
      (acc : List PendingSpawn × GameWorld × List ReinforcementEvent),
      (l.foldl (reinforcement_port_step cf up) acc).2.1.resources.current_faction =
        acc.2.1.resources.current_faction := by
  intro l
  induction l with
  | nil => intro acc; rfl
  | cons hd tl ih =>
    intro acc
    rw [List.foldl_cons, ih, reinforcement_port_step_current_faction]

/-- `reinforcement_system` never changes the current faction. -/
theorem reinforcement_system_current_faction (w : GameWorld) :
    (reinforcement_system w).2.1.resources.current_faction =
      w.resources.current_faction := by
  unfold reinforcement_system
  dsimp only
  repeat' split
  all_goals simp only [set_unit_resources]
  all_goals rw [foldl_port_step_current_faction, foldl_city_step_resources]

/-- Spec-side definition, following the claim's words: the first non-eliminated
faction strictly after `cur` in the fixed cyclic order. -/
def first_non_eliminated_after (elim : List Bool) (cur : Faction) : Option Faction :=
  [next_faction cur, next_faction (next_faction cur),
   next_faction (next_faction (next_faction cur)),
   next_faction (next_faction (next_faction (next_faction cur)))].find?
    (fun f => ! elim.getD (faction_index f) false)

theorem skip_eliminated_eq_find (elim : List Bool) (cur : Faction)
    (h : ∃ f : Faction, elim.getD (faction_index f) false = false) :
    some (skip_eliminated 4 elim (next_faction cur)) =
      first_non_eliminated_after elim cur := by
  obtain ⟨f, hf⟩ := h
  cases hb0 : elim.getD 0 false <;> cases hb1 : elim.getD 1 false <;>
    cases hb2 : elim.getD 2 false <;> cases hb3 : elim.getD 3 false <;>
    cases cur <;>
    simp_all [skip_eliminated, first_non_eliminated_after, next_faction, faction_index] <;>
    (cases f <;> simp_all [faction_index])

/-- C7: whenever at least one faction is non-eliminated, `end_turn` sets
`current_faction` (returned as `new_faction` and stored in the resources) to the
first non-eliminated faction strictly after the previous current faction in the
cyclic order Redosia, Violetnam, Bluegaria, Greenland; the skip loop is bounded
to 4 attempts. -/
theorem claim_C7_end_turn_next_nonelim_faction :
    ∀ w : GameWorld,
      (∃ f : Faction, w.resources.faction_eliminated.getD (faction_index f) false = false) →
      some (end_turn w).1.new_faction =
        first_non_eliminated_after w.resources.faction_eliminated
          w.resources.current_faction ∧
      (end_turn w).2.1.resources.current_faction = (end_turn w).1.new_faction := by
  intro w h
  constructor
  · exact skip_eliminated_eq_find _ _ h
  · show (reinforcement_system _).2.1.resources.current_faction = _
    rw [reinforcement_system_current_faction]
    rfl

/-- A world with only Violetnam eliminated and Redosia to move. -/
def c7World : GameWorld where
  units := []
  tiles := []
  hexPositions := []
  movements := []
  selected := []
  resources := { baseRes with faction_eliminated := [false, true, false, false] }

theorem claim_C7_witness :
    c7World.resources.faction_eliminated.getD (faction_index Faction.Redosia) false = false ∧
    some (end_turn c7World).1.new_faction =
      first_non_eliminated_after c7World.resources.faction_eliminated
        c7World.resources.current_faction ∧
    (end_turn c7World).1.new_faction = Faction.Bluegaria := by
  have h := claim_C7_end_turn_next_nonelim_faction c7World ⟨Faction.Redosia, by decide⟩
  refine ⟨by decide, h.1, ?_⟩
  have h2 : first_non_eliminated_after c7World.resources.faction_eliminated
      c7World.resources.current_faction = some Faction.Bluegaria := by decide
  have h3 := h.1
  rw [h2] at h3
  exact Option.some.inj h3

/-! ## C2: map generation determinism (src/map.rs)

`generate_map` seeds one LCG from its `u32` argument, but the growth passes (and
the city/port candidate collection) iterate `std::collections::HashMap`s, whose
iteration order is randomized per instance (`RandomState`).  The Fisher-Yates
shuffle applied on top consumes a deterministic swap sequence, so the order in
which sea hexes are processed — and hence which hex receives which LCG roll, and
the neighbor counts seen mid-pass — depends on the hash-map order, a second
entropy source.  The growth-pass loop is embedded below with that order as an
explicit parameter. -/

/-- `get_hex_neighbors` (src/map.rs lines 60-120): a verbatim copy of the
`hex_neighbors` table. -/
def get_hex_neighbors (c : HexCoord) : List HexCoord := hex_neighbors c

/-- `is_in_bounds` (src/map.rs lines 122-124). -/
def is_in_bounds (c : HexCoord) (width height : Int) : Bool :=
  0 ≤ c.column && c.column < width && 0 ≤ c.row && c.row < height

/-- `HashMap::insert`: overwrite or append. -/
def map_insert (m : List (HexCoord × TileType)) (k : HexCoord) (v : TileType) :
    List (HexCoord × TileType) :=
  if (m.lookup k).isSome then m.map (fun p => if p.1 = k then (k, v) else p)
  else m ++ [(k, v)]

/-- `count_land_neighbors` (src/map.rs lines 126-139). -/
def count_land_neighbors (coord : HexCoord) (tiles : List (HexCoord × TileType))
    (width height : Int) : Int :=
  (get_hex_neighbors coord).foldl (fun count neighbor =>
    if is_in_bounds neighbor width height ∧ tiles.lookup neighbor = some TileType.Land then
      count + 1
    else count) 0

/-- `rng_next_range` (src/map.rs lines 49-51): step the LCG (the new state is the
drawn value) and reduce mod `max`; returns (value, new state). -/
def rng_next_range (state : Nat) (max : Nat) : Nat × Nat :=
  let s := lcg_next state
  (s % max, s)

/-- One growth pass of `generate_map` (src/map.rs lines 273-294), with the
processing order of the sea hexes as an explicit parameter: for each sea hex in
order, count its current land neighbors; if at least 1, draw a roll mod 100 and
convert to Land when `roll < 25 * land_neighbors`.  Conversions made earlier in
the pass are visible to later neighbor counts. -/
def growth_pass (width height : Int) (order : List HexCoord)
    (tiles : List (HexCoord × TileType)) (seed : Nat) :
    List (HexCoord × TileType) × Nat :=
  order.foldl (fun (acc : List (HexCoord × TileType) × Nat) coord =>
    let (t, s) := acc
    let land_neighbors := count_land_neighbors coord t width height
    if 1 ≤ land_neighbors then
      let conversion_chance := land_neighbors * 25
      let roll := rng_next_range s 100
      if (roll.1 : Int) < conversion_chance then (map_insert t coord TileType.Land, roll.2)
      else (t, roll.2)
    else (t, s)) (tiles, seed)

/-- A small tile snapshot: Land at (2,2), (6,3), (5,3); Sea at (2,1) (one land
neighbor) and (6,4) (two land neighbors), not adjacent to each other. -/
def demoTiles : List (HexCoord × TileType) :=
  [(⟨2, 2⟩, TileType.Land), (⟨6, 3⟩, TileType.Land), (⟨5, 3⟩, TileType.Land),
   (⟨2, 1⟩, TileType.Sea), (⟨6, 4⟩, TileType.Sea)]

/-- C2 evidence: the growth pass is order-dependent.  With the same seed (0) and
the same sea-hex set, processing (2,1) before (6,4) leaves (6,4) as Sea (rolls
45 then 54, thresholds 25 then 50), while the reversed order converts (6,4) to
Land (roll 45 against threshold 50) — identical rng draws, different maps.
Since the processing order comes from iterating a per-instance-randomized
`HashMap`, two calls of `generate_map` with the same seed can produce different
tile maps, contradicting the single-entropy-source determinism claim. -/
theorem claim_C2_growth_pass_depends_on_hashmap_order :
    (growth_pass 9 9 [⟨2, 1⟩, ⟨6, 4⟩] demoTiles 0).1.lookup ⟨6, 4⟩ = some TileType.Sea ∧
    (growth_pass 9 9 [⟨6, 4⟩, ⟨2, 1⟩] demoTiles 0).1.lookup ⟨6, 4⟩ = some TileType.Land ∧
    (growth_pass 9 9 [⟨2, 1⟩, ⟨6, 4⟩] demoTiles 0).2 =
      (growth_pass 9 9 [⟨6, 4⟩, ⟨2, 1⟩] demoTiles 0).2 := by
  decide

end HexWar
